import Mathlib

/- Shallow embedding of the cuckoo-project storage engines:
   a cuckoo filter (src/cuckoofilter/src/cuckoofilter.h) and a cuckoo hash
   table (src/cuckoohashtable/hashtable/cuckoohashtable.hh).

   Machine integers (size_t, uint32_t) are modelled as Nat with explicit
   `% 2 ^ w` where overflow can occur.  The external collaborators that are
   not part of the repository sources (the SingleTable bucket store, the
   bucket_container, and the keyed hash family) are modelled from the spec;
   each such definition carries a doc comment starting with
   `Modelled from the spec:`. -/

/-- 2^64, the modulus of size_t arithmetic. -/
def U64 : Nat := 2 ^ 64

/-- 2^32, the modulus of uint32_t arithmetic. -/
def U32 : Nat := 2 ^ 32

/-- The 64-bit MurmurHash2 multiplier 0xc6a4a7935bd1e995 used by both
alternate-index functions. -/
def murmurConst : Nat := 0xc6a4a7935bd1e995

namespace cuckoofilter

/-- `kMaxCuckooCount`: maximum number of cuckoo kicks before storing a victim
(cuckoofilter.h line 23). -/
def kMaxCuckooCount : Nat := 500

/-- `Status` returned by a cuckoo filter operation (cuckoofilter.h lines 15-20). -/
inductive Status where
  | Ok
  | NotFound
  | NotEnoughSpace
  | NotSupported
deriving DecidableEq, Repr

/-- Construction-time data of a `CuckooFilter` instance: the bucket count of
the underlying table, `bits_per_item`, the hash-power `hp_` passed to the
modified constructor, the per-bucket seed table `seeds_`, and the keyed hash
family `hasher_` (external `HashFamily`, modelled as an arbitrary function
from item and seed to a 64-bit digest). -/
structure Config where
  numBuckets : Nat
  bitsPerItem : Nat
  hp : Nat
  seeds : List Nat
  hasher : Nat → Nat → Nat

/-- `VictimCache` (cuckoofilter.h lines 42-46). -/
structure VictimCache where
  index : Nat
  tag : Nat
  used : Bool
deriving DecidableEq, Repr

/-- Mutable state of a `CuckooFilter`: the bucket store contents (modelled
from the spec: each bucket is an ordered list of 4 slots, a slot holds a tag,
and tag 0 means the slot is empty), the stored item count `num_items_`, and
the victim cache `victim_`. -/
structure State where
  buckets : List (List Nat)
  numItems : Nat
  victim : VictimCache
deriving DecidableEq, Repr

/-- The freshly constructed filter: all slots empty, no items, no victim. -/
def initState (cfg : Config) : State :=
  ⟨List.replicate cfg.numBuckets (List.replicate 4 0), 0, ⟨0, 0, false⟩⟩

/-- `IndexHash` (cuckoofilter.h lines 56-63): `hash = (uint32_t)(item >> 32)`,
then `hash % NumBuckets()` (modulo, not bitmask, to support space-optimal
non-power-of-two bucket counts). -/
def IndexHash (cfg : Config) (item : Nat) : Nat :=
  ((item >>> 32) % U32) % cfg.numBuckets

/-- `TagHash` (cuckoofilter.h lines 65-70): keep `bits_per_item` low bits of
the digest and coerce a zero tag to 1. -/
def TagHash (cfg : Config) (hv : Nat) : Nat :=
  let tag := hv % 2 ^ cfg.bitsPerItem
  if tag = 0 then 1 else tag

/-- `AltIndex` (cuckoofilter.h lines 109-122):
`(index ^ (((item >> hp_) + 1) * 0xc6a4a7935bd1e995)) % NumBuckets()`,
with the multiplication performed in size_t (mod 2^64). -/
def AltIndex (cfg : Config) (index item : Nat) : Nat :=
  let fp := (item >>> cfg.hp) + 1
  (index ^^^ ((fp * murmurConst) % U64)) % cfg.numBuckets

/-- `GenerateIndexTagHash` (cuckoofilter.h lines 72-83): primary index from
`IndexHash`, tag from the digest `hasher_(item, seeds_.at(index))`. -/
def GenerateIndexTagHash (cfg : Config) (item : Nat) : Nat × Nat :=
  let index := IndexHash cfg item
  let hash := cfg.hasher item (cfg.seeds.getD index 0)
  (index, TagHash cfg hash)

/-- `GenerateTagHashes` (cuckoofilter.h lines 86-98), used by `Contain`:
`i1 = IndexHash(item)`, `i2 = AltIndex(i1, item)` (the alternate index of the
item, not of the tag), and one tag per bucket seed. -/
def GenerateTagHashes (cfg : Config) (item : Nat) : Nat × Nat × Nat × Nat :=
  let i1 := IndexHash cfg item
  let i2 := AltIndex cfg i1 item
  let tag1 := TagHash cfg (cfg.hasher item (cfg.seeds.getD i1 0))
  let tag2 := TagHash cfg (cfg.hasher item (cfg.seeds.getD i2 0))
  (i1, i2, tag1, tag2)

/-- Modelled from the spec: `SingleTable::InsertTagToBucket` (the bucket
store is an external collaborator; src/ has only its callers).  Try the
slots of bucket `i` in deterministic order and write `tag` into the first
empty one; if the bucket is full and `kickout` is set, evict the occupant of
a fixed slot (slot 0), write `tag` there, and report the evicted tag.
Returns (inserted?, new state, oldtag). -/
def InsertTagToBucket (st : State) (i tag : Nat) (kickout : Bool) :
    Bool × State × Nat :=
  let b := st.buckets.getD i []
  match b.findIdx? (· == 0) with
  | some s => (true, { st with buckets := st.buckets.set i (b.set s tag) }, 0)
  | none =>
      if kickout then
        (false, { st with buckets := st.buckets.set i (b.set 0 tag) }, b.getD 0 0)
      else
        (false, st, 0)

/-- Modelled from the spec: `SingleTable::FindTagInBuckets`.  Lookup probes
the two candidate buckets for their respective matching tags. -/
def FindTagInBuckets (st : State) (i1 i2 tag1 tag2 : Nat) : Bool :=
  (st.buckets.getD i1 []).contains tag1 || (st.buckets.getD i2 []).contains tag2

/-- Modelled from the spec: `SingleTable::DeleteTagFromBucket`.  If bucket
`i` holds `tag`, clear that slot (write the empty sentinel 0) and report
success; otherwise leave the state unchanged. -/
def DeleteTagFromBucket (st : State) (i tag : Nat) : Bool × State :=
  let b := st.buckets.getD i []
  match b.findIdx? (· == tag) with
  | some s => (true, { st with buckets := st.buckets.set i (b.set s 0) })
  | none => (false, st)

/-- The kick loop of `AddImpl` (cuckoofilter.h lines 206-231), with the
remaining iteration count made explicit.  Each iteration attempts
`InsertTagToBucket(curindex, curtag, kickout)`; on success `num_items_` is
incremented and `Ok` returned; otherwise the (possibly) evicted tag becomes
the current tag and the walk moves to `AltIndex(curindex, curtag)`.  When the
500 iterations are exhausted, the current pair is stored as the victim and
`Ok` is returned (without incrementing `num_items_`). -/
def AddImplLoop (cfg : Config) : Nat → State → Nat → Nat → Bool → State × Status
  | 0, st, curindex, curtag, _ =>
      ({ st with victim := ⟨curindex, curtag, true⟩ }, Status.Ok)
  | fuel + 1, st, curindex, curtag, kickout =>
      match InsertTagToBucket st curindex curtag kickout with
      | (true, st', _) => ({ st' with numItems := st'.numItems + 1 }, Status.Ok)
      | (false, st', oldtag) =>
          let curtag' := if kickout then oldtag else curtag
          let curindex' := AltIndex cfg curindex curtag'
          AddImplLoop cfg fuel st' curindex' curtag' true

/-- `AddImpl` (cuckoofilter.h lines 206-231): the first iteration runs with
`kickout = (count > 0) = false`, all later ones with `kickout = true`. -/
def AddImpl (cfg : Config) (st : State) (i tag : Nat) : State × Status :=
  AddImplLoop cfg kMaxCuckooCount st i tag false

/-- `Add` (cuckoofilter.h lines 191-204): fail fast with `NotEnoughSpace`
when a victim is held, otherwise run `AddImpl` on the generated index/tag. -/
def Add (cfg : Config) (st : State) (item : Nat) : State × Status :=
  if st.victim.used then
    (st, Status.NotEnoughSpace)
  else
    let it := GenerateIndexTagHash cfg item
    AddImpl cfg st it.1 it.2

/-- `Contain` (cuckoofilter.h lines 245-272): probe `(i1, tag1)` and
`(i2, tag2)` from `GenerateTagHashes`; the victim check is commented out in
the source, so `found` is constantly false. -/
def Contain (cfg : Config) (st : State) (item : Nat) : Status :=
  let t := GenerateTagHashes cfg item
  let found := false
  if found || FindTagInBuckets st t.1 t.2.1 t.2.2.1 t.2.2.2 then
    Status.Ok
  else
    Status.NotFound

/-- The `TryEliminateVictim` tail of `Delete` (cuckoofilter.h lines 298-305):
after a successful bucket deletion, a held victim is cleared and re-inserted
through `AddImpl`. -/
def TryEliminateVictim (cfg : Config) (st : State) : State :=
  if st.victim.used then
    let st' := { st with victim := { st.victim with used := false } }
    (AddImpl cfg st' st.victim.index st.victim.tag).1
  else
    st

/-- `Delete` (cuckoofilter.h lines 274-306): try the primary bucket, then the
alternate bucket `AltIndex(i1, tag)` (of the tag, as in `AddImpl`), then the
victim; bucket deletions decrement `num_items_` and reclaim the victim, a
victim match only clears the victim (the decrement is commented out in the
source). -/
def Delete (cfg : Config) (st : State) (item : Nat) : State × Status :=
  let it := GenerateIndexTagHash cfg item
  let i1 := it.1
  let tag := it.2
  let i2 := AltIndex cfg i1 tag
  match DeleteTagFromBucket st i1 tag with
  | (true, st') =>
      (TryEliminateVictim cfg { st' with numItems := st'.numItems - 1 }, Status.Ok)
  | (false, _) =>
      match DeleteTagFromBucket st i2 tag with
      | (true, st') =>
          (TryEliminateVictim cfg { st' with numItems := st'.numItems - 1 }, Status.Ok)
      | (false, _) =>
          if st.victim.used && tag == st.victim.tag &&
              (i1 == st.victim.index || i2 == st.victim.index) then
            ({ st with victim := { st.victim with used := false } }, Status.Ok)
          else
            (st, Status.NotFound)

/-- `Size` (cuckoofilter.h line 185). -/
def Size (st : State) : Nat := st.numItems

/-- Number of occupied slots across all buckets (a slot is occupied iff it
holds a nonzero tag). -/
def occupiedCount (st : State) : Nat :=
  (st.buckets.map (fun b => b.countP (· != 0))).sum

/-- A single filter operation, for stating reachability. -/
inductive Op where
  | add (item : Nat)
  | del (item : Nat)

/-- Apply one operation, keeping the resulting state. -/
def applyOp (cfg : Config) (st : State) : Op → State
  | Op.add item => (Add cfg st item).1
  | Op.del item => (Delete cfg st item).1

/-- The state reached from the fresh filter by a sequence of operations. -/
def applyOps (cfg : Config) (ops : List Op) : State :=
  ops.foldl (applyOp cfg) (initState cfg)

end cuckoofilter

namespace cuckoohashtable

/-- `SLOT_PER_BUCKET` (default template argument, cuckoohashtable.hh line 32). -/
def SLOT_PER_BUCKET : Nat := 4

/-- `MAX_BFS_PATH_LEN` (cuckoohashtable.hh line 535). -/
def MAX_BFS_PATH_LEN : Nat := 5

/-- Construction-time data of a `cuckoo_hashtable`: the hashpower (fixed, no
resizing), the hash function `hash_fn_` (external `Hash` template parameter),
and the value read from an unoccupied slot.  The latter is modelled from the
spec: the external `bucket_container` stores bare keys, `key(i)` on an
unoccupied slot reads unspecified storage, and `junk` stands for that
content. -/
structure Config where
  hp : Nat
  hf : Nat → Nat
  junk : Nat

/-- Mutable state of a `cuckoo_hashtable`: the bucket container contents
(modelled from the spec: each bucket is an ordered list of
`SLOT_PER_BUCKET` slots, each empty or holding one key) and `num_items_`. -/
structure State where
  buckets : List (List (Option Nat))
  numItems : Nat
deriving DecidableEq, Repr

/-- The freshly constructed table for a given hashpower. -/
def initState (cfg : Config) : State :=
  ⟨List.replicate (1 <<< cfg.hp) (List.replicate SLOT_PER_BUCKET none), 0⟩

/-- `hashsize` (cuckoohashtable.hh lines 251-254): `1 << hp`. -/
def hashsize (hp : Nat) : Nat := 1 <<< hp

/-- `hashmask` (cuckoohashtable.hh lines 258-261). -/
def hashmask (hp : Nat) : Nat := hashsize hp - 1

/-- `index_hash` (cuckoohashtable.hh lines 265-268). -/
def index_hash (hp hv : Nat) : Nat := hv &&& hashmask hp

/-- `alt_index` (cuckoohashtable.hh lines 275-290):
`(index ^ (((hv >> hp) + 1) * 0xc6a4a7935bd1e995)) & hashmask(hp)`, the
multiplication performed in size_t (mod 2^64). -/
def alt_index (hp hv index : Nat) : Nat :=
  let tag := (hv >>> hp) + 1
  (index ^^^ ((tag * murmurConst) % U64)) &&& hashmask hp

/-- `bucket_container` occupancy test (external collaborator; modelled from
the spec). -/
def occupiedAt (st : State) (i s : Nat) : Bool :=
  ((st.buckets.getD i []).getD s none).isSome

/-- `bucket::key(s)` (external collaborator; modelled from the spec): the
stored key if slot `s` of bucket `i` is occupied, the unspecified storage
content `junk` otherwise (the source reads the slot without an occupancy
check in `try_read_from_bucket`). -/
def keyAt (cfg : Config) (st : State) (i s : Nat) : Nat :=
  ((st.buckets.getD i []).getD s none).getD cfg.junk

/-- `bucket_container::setK` (external collaborator; modelled from the
spec): store key `k` in slot `s` of bucket `i`. -/
def setK (st : State) (i s k : Nat) : State :=
  { st with buckets := st.buckets.set i ((st.buckets.getD i []).set s (some k)) }

/-- `bucket_container::eraseK` (external collaborator; modelled from the
spec): clear slot `s` of bucket `i`. -/
def eraseK (st : State) (i s : Nat) : State :=
  { st with buckets := st.buckets.set i ((st.buckets.getD i []).set s none) }

/-- `try_read_from_bucket` (cuckoohashtable.hh lines 362-373): first slot of
bucket `i` whose key compares equal to `key` (no occupancy check), or none. -/
def try_read_from_bucket (cfg : Config) (st : State) (i key : Nat) : Option Nat :=
  (List.range SLOT_PER_BUCKET).find? (fun s => keyAt cfg st i s == key)

/-- Internal status codes (cuckoohashtable.hh lines 322-330). -/
inductive cuckoo_status where
  | ok
  | failure
  | failure_key_not_found
  | failure_key_duplicated
  | failure_table_full
  | failure_under_expansion
deriving DecidableEq, Repr

/-- `table_position` (cuckoohashtable.hh lines 334-339). -/
structure table_position where
  index : Nat
  slot : Nat
  status : cuckoo_status
deriving DecidableEq, Repr

/-- `cuckoo_find` (cuckoohashtable.hh lines 344-358).  Note that when the key
is found in bucket `i2` the source returns `table_position{i1, slot, ok}`
(line 355), reproduced here verbatim. -/
def cuckoo_find (cfg : Config) (st : State) (key i1 i2 : Nat) : table_position :=
  match try_read_from_bucket cfg st i1 key with
  | some s => ⟨i1, s, cuckoo_status.ok⟩
  | none =>
      match try_read_from_bucket cfg st i2 key with
      | some s => ⟨i1, s, cuckoo_status.ok⟩
      | none => ⟨0, 0, cuckoo_status.failure_key_not_found⟩

/-- Errors surfaced to the caller as C++ exceptions (`std::out_of_range` in
`find` and `cuckoo_insert_loop`), plus `loopLimit`, the marker for
exhausting the fuel that stands in for the unbounded `while` loop of
`run_cuckoo`. -/
inductive TError where
  | keyNotFound
  | tableFull
  | loopLimit
deriving DecidableEq, Repr

/-- `find` (cuckoohashtable.hh lines 221-240): compute both candidate
buckets of the hashed key, run `cuckoo_find`, and return the key stored at
the reported position, or throw (`Except.error`) when not found. -/
def find (cfg : Config) (st : State) (key : Nat) : Except TError Nat :=
  let hv := cfg.hf key
  let i1 := index_hash cfg.hp hv
  let i2 := alt_index cfg.hp hv i1
  let pos := cuckoo_find cfg st key i1 i2
  if pos.status = cuckoo_status.ok then
    Except.ok (keyAt cfg st pos.index pos.slot)
  else
    Except.error TError.keyNotFound

/-- The slot scan of `try_find_insert_bucket` (cuckoohashtable.hh lines
498-520): `j` counts the remaining slots, `i` is the current slot, `acc` the
last empty slot seen.  An occupied slot holding `key` stops the scan with
`(false, that slot)`; otherwise the scan ends with `(true, last empty)`. -/
def tfibGo (cfg : Config) (st : State) (bi key : Nat) :
    Nat → Nat → Option Nat → Bool × Option Nat
  | 0, _, acc => (true, acc)
  | j + 1, i, acc =>
      match (st.buckets.getD bi []).getD i none with
      | some k =>
          if k == key then (false, some i) else tfibGo cfg st bi key j (i + 1) acc
      | none => tfibGo cfg st bi key j (i + 1) (some i)

/-- `try_find_insert_bucket` (cuckoohashtable.hh lines 498-520). -/
def try_find_insert_bucket (cfg : Config) (st : State) (bi key : Nat) :
    Bool × Option Nat :=
  tfibGo cfg st bi key SLOT_PER_BUCKET 0 none

/-- `CuckooRecord` (cuckoohashtable.hh lines 526-531). -/
structure CuckooRecord where
  bucket : Nat
  slot : Nat
  hv : Nat
deriving DecidableEq, Repr

/-- `const_pow` (cuckoohashtable.hh lines 686-689). -/
def const_pow : Nat → Nat → Nat
  | _, 0 => 1
  | a, b + 1 => a * const_pow a b

/-- `b_queue::MAX_CUCKOO_COUNT` (cuckoohashtable.hh lines 753-757): the queue
capacity, sized to the worst-case two-start BFS enumeration. -/
def MAX_CUCKOO_COUNT : Nat :=
  2 * ((const_pow SLOT_PER_BUCKET MAX_BFS_PATH_LEN - 1) / (SLOT_PER_BUCKET - 1))

/-- `b_slot` (cuckoohashtable.hh lines 691-719): bucket of the last item of a
BFS path, the base-`SLOT_PER_BUCKET` compressed slot sequence, and the
0-indexed depth (the failure sentinel depth -1 is expressed by the result
type of `slot_search` instead). -/
structure b_slot where
  bucket : Nat
  pathcode : Nat
  depth : Nat
deriving DecidableEq, Repr

/-- `b_queue` (cuckoohashtable.hh lines 722-766): a fixed array written at
`last_` and read at `first_`, with no wrap-around.  `slots` collects every
entry ever enqueued, so `slots.length` is `last_`. -/
structure b_queue where
  slots : List b_slot
  first : Nat
deriving DecidableEq, Repr

/-- `b_queue::full` (cuckoohashtable.hh line 743). -/
def bqFull (q : b_queue) : Bool := q.slots.length == MAX_CUCKOO_COUNT

/-- `b_queue::empty` (cuckoohashtable.hh line 741). -/
def bqEmpty (q : b_queue) : Bool := q.first == q.slots.length

/-- `b_queue::enqueue` (cuckoohashtable.hh lines 727-730): the source asserts
`!full()` and writes at `last_++`; writing into a full queue would run past
the array, so that case is an explicit error (`none`) here. -/
def enqueue (q : b_queue) (x : b_slot) : Option b_queue :=
  if bqFull q then none else some ⟨q.slots ++ [x], q.first⟩

/-- `b_queue::dequeue` (cuckoohashtable.hh lines 733-739): read at
`first_++`; `none` when the queue is empty. -/
def dequeue (q : b_queue) : Option (b_slot × b_queue) :=
  match q.slots.get? q.first with
  | some x => some (x, ⟨q.slots, q.first + 1⟩)
  | none => none

/-- Result of `scanGo`, the slot scan inside one `slot_search` iteration. -/
inductive ScanOut where
  | found (x : b_slot)
  | cont (q : b_queue)
  | overflow
deriving DecidableEq, Repr

/-- The inner `for` loop of `slot_search` (cuckoohashtable.hh lines
786-806): scan the `SLOT_PER_BUCKET` slots of `x.bucket` starting from
`start = x.pathcode % SLOT_PER_BUCKET`.  An unoccupied slot ends the whole
search with the extended pathcode; an occupied slot enqueues the alternate
bucket of the RAW stored key (`hv = b.key(slot)`, source line 799) when
`x.depth < MAX_BFS_PATH_LEN - 1`.  `j` counts the remaining slots, `i` the
current offset. -/
def scanGo (cfg : Config) (st : State) (x : b_slot) (start : Nat) :
    Nat → Nat → b_queue → ScanOut
  | 0, _, q => ScanOut.cont q
  | j + 1, i, q =>
      let slot := (start + i) % SLOT_PER_BUCKET
      if occupiedAt st x.bucket slot then
        let hv := keyAt cfg st x.bucket slot
        if x.depth < MAX_BFS_PATH_LEN - 1 then
          match enqueue q ⟨alt_index cfg.hp hv x.bucket,
              x.pathcode * SLOT_PER_BUCKET + slot, x.depth + 1⟩ with
          | none => ScanOut.overflow
          | some q1 => scanGo cfg st x start j (i + 1) q1
        else
          scanGo cfg st x start j (i + 1) q
      else
        ScanOut.found ⟨x.bucket, x.pathcode * SLOT_PER_BUCKET + slot, x.depth⟩

/-- Result of `slot_search`: a path-describing `b_slot`, the depth -1
failure sentinel (`noPath`), or the two situations the source leaves
undefined or cannot exhibit: an enqueue on a full queue, and exhaustion of
the fuel bounding the `while (!q.empty())` loop. -/
inductive SearchResult where
  | found (x : b_slot)
  | noPath
  | queueOverflow
  | outOfFuel
deriving DecidableEq, Repr

/-- The `while (!q.empty())` loop of `slot_search` (cuckoohashtable.hh lines
780-807), fuelled by the number of remaining dequeues. -/
def slotSearchLoop (cfg : Config) (st : State) : Nat → b_queue → SearchResult
  | 0, q => if bqEmpty q then SearchResult.noPath else SearchResult.outOfFuel
  | fuel + 1, q =>
      if bqEmpty q then SearchResult.noPath
      else
        match dequeue q with
        | none => SearchResult.noPath
        | some (x, q1) =>
            match scanGo cfg st x (x.pathcode % SLOT_PER_BUCKET) SLOT_PER_BUCKET 0 q1 with
            | ScanOut.found y => SearchResult.found y
            | ScanOut.overflow => SearchResult.queueOverflow
            | ScanOut.cont q2 => slotSearchLoop cfg st fuel q2

/-- `slot_search` (cuckoohashtable.hh lines 774-811): seed the queue with the
two starting buckets (pathcodes 0 and 1) and run the loop.  A queue of
capacity `MAX_CUCKOO_COUNT` can absorb at most that many dequeues, so that
is the fuel. -/
def slot_search (cfg : Config) (st : State) (i1 i2 : Nat) : SearchResult :=
  match enqueue ⟨[], 0⟩ ⟨i1, 0, 0⟩ with
  | none => SearchResult.queueOverflow
  | some q1 =>
      match enqueue q1 ⟨i2, 1, 0⟩ with
      | none => SearchResult.queueOverflow
      | some q2 => slotSearchLoop cfg st MAX_CUCKOO_COUNT q2

/-- Slot `i` of the path encoded by `pathcode` at the given depth
(cuckoohashtable.hh lines 588-592: digits are peeled off from index `depth`
down to 0). -/
def pathSlot (pc depth i : Nat) : Nat :=
  (pc / SLOT_PER_BUCKET ^ (depth - i)) % SLOT_PER_BUCKET

/-- What remains of `pathcode` after all `depth + 1` slot digits are removed;
0 selects start bucket `i1`, 1 selects `i2` (cuckoohashtable.hh lines
596-605). -/
def finalCode (pc depth : Nat) : Nat := pc / SLOT_PER_BUCKET ^ (depth + 1)

/-- The `for (i = 1; i <= x.depth; ++i)` loop of `cuckoopath_search`
(cuckoohashtable.hh lines 614-628): extend the record list one hop at a
time; an unoccupied slot ends the path early at index `i`.  `j` counts the
remaining iterations, `i` the current index, `prev` the last record, `acc`
the records built so far. -/
def decodeGo (cfg : Config) (st : State) (pc depth : Nat) :
    Nat → Nat → CuckooRecord → List CuckooRecord → List CuckooRecord × Nat
  | 0, _, _, acc => (acc, depth)
  | j + 1, i, prev, acc =>
      let s := pathSlot pc depth i
      let b := alt_index cfg.hp prev.hv prev.bucket
      if occupiedAt st b s then
        let curr : CuckooRecord := ⟨b, s, cfg.hf (keyAt cfg st b s)⟩
        decodeGo cfg st pc depth j (i + 1) curr (acc ++ [curr])
      else
        (acc ++ [⟨b, s, 0⟩], i)

/-- `cuckoopath_search` (cuckoohashtable.hh lines 579-630): run
`slot_search`, then rebuild the cuckoo path records from the pathcode.  The
result is the list of records `cuckoo_path[0..depth]` together with the
returned depth; `none` is the depth -1 failure. -/
def cuckoopath_search (cfg : Config) (st : State) (i1 i2 : Nat) :
    Option (List CuckooRecord × Nat) :=
  match slot_search cfg st i1 i2 with
  | SearchResult.found x =>
      let start := if finalCode x.pathcode x.depth = 0 then i1 else i2
      let s0 := pathSlot x.pathcode x.depth 0
      if occupiedAt st start s0 then
        let first : CuckooRecord := ⟨start, s0, cfg.hf (keyAt cfg st start s0)⟩
        some (decodeGo cfg st x.pathcode x.depth x.depth 1 first [first])
      else
        some ([⟨start, s0, 0⟩], 0)
  | _ => none

/-- The `while (depth > 0)` loop of `cuckoopath_move` (cuckoohashtable.hh
lines 655-681): move the key at `cuckoo_path[depth-1]` into
`cuckoo_path[depth]` after validating that the target is free, the source
occupied, and the source hash unchanged. -/
def cpmGo (cfg : Config) (path : List CuckooRecord) : Nat → State → Bool × State
  | 0, st => (true, st)
  | d + 1, st =>
      let frm := path.getD d ⟨0, 0, 0⟩
      let tto := path.getD (d + 1) ⟨0, 0, 0⟩
      if occupiedAt st tto.bucket tto.slot || !occupiedAt st frm.bucket frm.slot ||
          cfg.hf (keyAt cfg st frm.bucket frm.slot) != frm.hv then
        (false, st)
      else
        cpmGo cfg path d
          (eraseK (setK st tto.bucket tto.slot (keyAt cfg st frm.bucket frm.slot))
            frm.bucket frm.slot)

/-- `cuckoopath_move` (cuckoohashtable.hh lines 634-682): at depth 0 just
check that the start slot is (still) unoccupied; otherwise run the move
loop. -/
def cuckoopath_move (cfg : Config) (st : State) (path : List CuckooRecord)
    (depth : Nat) : Bool × State :=
  if depth = 0 then
    let r0 := path.getD 0 ⟨0, 0, 0⟩
    if occupiedAt st r0.bucket r0.slot then (false, st) else (true, st)
  else
    cpmGo cfg path depth st

/-- Result of `run_cuckoo`: the freed (bucket, slot), the `failure` status,
or exhaustion of the fuel standing in for the unbounded `while (!done)`
loop. -/
inductive RCOut where
  | ok (bucket slot : Nat)
  | failure
  | outOfFuel
deriving DecidableEq, Repr

/-- `run_cuckoo` (cuckoohashtable.hh lines 544-574): repeat
`cuckoopath_search` / `cuckoopath_move` until a move succeeds (freeing
`cuckoo_path[0]`) or the search fails.  The source loop is unbounded; `fuel`
makes it total, with `RCOut.outOfFuel` marking exhaustion. -/
def run_cuckoo (cfg : Config) : Nat → State → Nat → Nat → RCOut × State
  | 0, st, _, _ => (RCOut.outOfFuel, st)
  | fuel + 1, st, i1, i2 =>
      match cuckoopath_search cfg st i1 i2 with
      | none => (RCOut.failure, st)
      | some (path, depth) =>
          match cuckoopath_move cfg st path depth with
          | (true, st1) =>
              let r0 := path.getD 0 ⟨0, 0, 0⟩
              (RCOut.ok r0.bucket r0.slot, st1)
          | (false, st1) => run_cuckoo cfg fuel st1 i1 i2

/-- `cuckoo_insert` (cuckoohashtable.hh lines 441-482): scan both candidate
buckets for a duplicate or an empty slot; otherwise run the eviction
machinery.  `none` propagates `run_cuckoo` fuel exhaustion. -/
def cuckoo_insert (cfg : Config) (fuel : Nat) (st : State) (i1 i2 key : Nat) :
    Option (table_position × State) :=
  match try_find_insert_bucket cfg st i1 key with
  | (false, res1) => some (⟨i1, res1.getD 0, cuckoo_status.failure_key_duplicated⟩, st)
  | (true, res1) =>
      match try_find_insert_bucket cfg st i2 key with
      | (false, res2) =>
          some (⟨i2, res2.getD 0, cuckoo_status.failure_key_duplicated⟩, st)
      | (true, res2) =>
          match res1 with
          | some s => some (⟨i1, s, cuckoo_status.ok⟩, st)
          | none =>
              match res2 with
              | some s => some (⟨i2, s, cuckoo_status.ok⟩, st)
              | none =>
                  match run_cuckoo cfg fuel st i1 i2 with
                  | (RCOut.ok ib is, st1) => some (⟨ib, is, cuckoo_status.ok⟩, st1)
                  | (RCOut.failure, st1) =>
                      some (⟨0, 0, cuckoo_status.failure_table_full⟩, st1)
                  | (RCOut.outOfFuel, _) => none

/-- `cuckoo_insert_loop` (cuckoohashtable.hh lines 390-421): `ok` and
`failure_key_duplicated` return the position; `failure_table_full` throws
`std::out_of_range` (modelled by `Except.error TError.tableFull`).  The
remaining statuses are never produced by `cuckoo_insert` (the source hits
`assert(false)`); they map to `TError.loopLimit` like the fuel marker. -/
def cuckoo_insert_loop (cfg : Config) (fuel : Nat) (st : State) (i1 i2 key : Nat) :
    Except TError (table_position × State) :=
  match cuckoo_insert cfg fuel st i1 i2 key with
  | none => Except.error TError.loopLimit
  | some (pos, st1) =>
      match pos.status with
      | cuckoo_status.ok => Except.ok (pos, st1)
      | cuckoo_status.failure_key_duplicated => Except.ok (pos, st1)
      | cuckoo_status.failure_table_full => Except.error TError.tableFull
      | _ => Except.error TError.loopLimit

/-- `insert` (cuckoohashtable.hh lines 157-181): find the position via
`cuckoo_insert_loop`; on status `ok` store the key there and increment
`num_items_`; on a duplicate return the existing position unchanged.  The
returned pair is `(index, slot)` as in the source. -/
def insert (cfg : Config) (fuel : Nat) (st : State) (key : Nat) :
    Except TError ((Nat × Nat) × State) :=
  let hv := cfg.hf key
  let i1 := index_hash cfg.hp hv
  let i2 := alt_index cfg.hp hv i1
  match cuckoo_insert_loop cfg fuel st i1 i2 key with
  | Except.error e => Except.error e
  | Except.ok (pos, st1) =>
      if pos.status = cuckoo_status.ok then
        Except.ok ((pos.index, pos.slot),
          { setK st1 pos.index pos.slot key with numItems := st1.numItems + 1 })
      else
        Except.ok ((pos.index, pos.slot), st1)

/-- `size` (cuckoohashtable.hh lines 119-122). -/
def size (st : State) : Nat := st.numItems

/-- Fold a list of keys through `insert`, keeping the state (a thrown
exception leaves the state of the failed call). -/
def insertList (cfg : Config) (fuel : Nat) (st : State) (keys : List Nat) : State :=
  keys.foldl
    (fun t k =>
      match insert cfg fuel t k with
      | Except.ok (_, t1) => t1
      | Except.error _ => t)
    st

end cuckoohashtable

/-! ## Verification-side definitions: invariants, weights, concrete instances -/

deriving instance DecidableEq for Except

namespace cuckoofilter

/-- Occupied-slot count of a list of buckets. -/
def occL (bs : List (List Nat)) : Nat :=
  (bs.map (fun b => b.countP (· != 0))).sum

/-- Structural well-formedness plus the size accounting that actually holds:
the bucket list has the configured length, every bucket has 4 slots, a held
victim carries a nonzero tag, and `num_items_` equals the number of occupied
slots (the held victim is not counted). -/
def SizeInv (cfg : Config) (st : State) : Prop :=
  st.buckets.length = cfg.numBuckets ∧
  (∀ b ∈ st.buckets, b.length = 4) ∧
  (st.victim.used = true →
    (st.victim.tag ≠ 0 ∧ st.victim.index < cfg.numBuckets) ∨ cfg.numBuckets = 0) ∧
  st.numItems = occupiedCount st

/-- Filter used for the lookup discrepancy: 3 buckets (a space-optimal,
non-power-of-two count), 8 bits per item, hashpower parameter 2, all seeds
0, and the keyed hasher digest modelled as item + seed. -/
def exCfgA : Config := ⟨3, 8, 2, [0, 0, 0], fun item seed => item + seed⟩

/-- Four items of tag 1..4 that fill bucket 0, then item 265 (tag 9). -/
def exOpsA4 : List Op := [Op.add 1, Op.add 2, Op.add 3, Op.add 4]

/-- The same sequence with the fifth insertion appended. -/
def exOpsA : List Op := exOpsA4 ++ [Op.add 265]

/-- Four-bucket (power-of-two) filter used for the involution witness. -/
def exCfgP2 : Config := ⟨4, 8, 2, [0, 0, 0, 0], fun item seed => item + seed⟩

/-- One-bucket filter (capacity 4) used to force a victim. -/
def exCfg1 : Config := ⟨1, 8, 2, [0], fun item seed => item + seed⟩

/-- Five insertions into the one-bucket filter: the fifth exhausts the
500-kick budget and is stored as the victim. -/
def exOps1 : List Op := [Op.add 1, Op.add 2, Op.add 3, Op.add 4, Op.add 5]

end cuckoofilter

namespace cuckoohashtable

/-- Hashpower-1 table with the identity hash function (the unoccupied-slot
storage content is 999). -/
def exCfg2 : Config := ⟨1, fun k => k, 999⟩

/-- Keys 0, 4, 8, 12 land in bucket 0 (filling it) and 16 overflows to its
alternate bucket 1. -/
def exKeys2 : List Nat := [0, 4, 8, 12, 16]

/-- The table state reached by inserting `exKeys2` into the fresh
hashpower-1 table. -/
def exTbl2 : State :=
  ⟨[[some 12, some 8, some 4, some 0], [none, none, none, some 16]], 5⟩

/-- The table state reached by inserting the single key 3 into the fresh
hashpower-1 table: key 3 is placed in bucket 1, slot 3. -/
def exTbl9 : State := insertList exCfg2 1 (initState exCfg2) [3]

/-- Hashpower-2 table with a non-identity hash function: key 50 hashes to
16 (candidate buckets 0 and 1) and key 4 hashes to 0; all other keys hash
to themselves. -/
def exCfg7 : Config :=
  ⟨2, fun k => if k == 50 then 16 else if k == 4 then 0 else k, 999⟩

/-- Buckets 0 and 1 full, buckets 2 and 3 empty.  The raw key 4 at bucket 0
slot 0 sends `slot_search` to bucket 2 (via `alt_index` of the raw key),
while `cuckoopath_search` re-derives the hop from the hashed key
`hf 4 = 0`, which points to bucket 1 instead. -/
def exTbl7 : State :=
  ⟨[[some 4, some 100, some 101, some 102],
    [some 200, some 201, some 202, some 203],
    [none, none, none, none],
    [none, none, none, none]], 8⟩

/-- Weight of a pending BFS entry of the given depth: the number of proper
descendants it can still contribute to the queue, i.e.
`4 + 4^2 + ... + 4^(4 - depth)` (0 from depth 4 on). -/
def hWeight : Nat → Nat
  | 0 => 340
  | 1 => 84
  | 2 => 20
  | 3 => 4
  | _ => 0

/-- Total weight of the pending (not yet dequeued) queue entries. -/
def pendingH (q : b_queue) : Nat :=
  ((q.slots.drop q.first).map (fun e => hWeight e.depth)).sum

/-- The queue potential: entries ever enqueued plus the pending weight. -/
def PsiQ (q : b_queue) : Nat := q.slots.length + pendingH q

/-- Queue well-formedness: the read index does not exceed the write index
and every entry has depth at most `MAX_BFS_PATH_LEN - 1`. -/
def GoodQ (q : b_queue) : Prop :=
  q.first ≤ q.slots.length ∧ ∀ e ∈ q.slots, e.depth ≤ MAX_BFS_PATH_LEN - 1

end cuckoohashtable

/-! ## Theorems -/

/-- XOR with a fixed value followed by masking to the `n` low bits is an
involution on values below `2 ^ n`. -/
theorem xor_mask_involution (n i v : Nat) (h : i < 2 ^ n) :
    (((i ^^^ v) &&& (2 ^ n - 1)) ^^^ v) &&& (2 ^ n - 1) = i := by
  calc (((i ^^^ v) &&& (2 ^ n - 1)) ^^^ v) &&& (2 ^ n - 1)
      = (((i ^^^ v) &&& (2 ^ n - 1)) &&& (2 ^ n - 1)) ^^^ (v &&& (2 ^ n - 1)) :=
        Nat.and_xor_distrib_right
    _ = ((i ^^^ v) &&& (2 ^ n - 1)) ^^^ (v &&& (2 ^ n - 1)) := by
        rw [Nat.and_assoc, Nat.and_self]
    _ = ((i &&& (2 ^ n - 1)) ^^^ (v &&& (2 ^ n - 1))) ^^^ (v &&& (2 ^ n - 1)) := by
        rw [Nat.and_xor_distrib_right]
    _ = i &&& (2 ^ n - 1) := Nat.xor_cancel_right _ _
    _ = i := Nat.and_pow_two_sub_one_of_lt_two_pow h

/-- C3 (counterexample): in the filter engine with the space-optimal bucket
count 3 (XOR then modulo), applying `AltIndex` twice with the same input
does not return to the original bucket index: at index 0 and input 0 the
double application yields 1. -/
theorem c3_counterexample :
    cuckoofilter.AltIndex cuckoofilter.exCfgA
      (cuckoofilter.AltIndex cuckoofilter.exCfgA 0 0) 0 ≠ 0 := by
  decide

/-- C3 (amended): the alternate-index involution
`alt_index (alt_index i x) x = i` holds for every valid bucket index in the
table engine (XOR then bitmask over a power-of-two bucket count), and in
the filter engine whenever the bucket count is a power of two; the filter's
modulo-based non-power-of-two configurations violate it. -/
theorem c3_amended :
    (∀ hp hv i, i < cuckoohashtable.hashsize hp →
        cuckoohashtable.alt_index hp hv (cuckoohashtable.alt_index hp hv i) = i) ∧
    (∀ (cfg : cuckoofilter.Config) (k i x : Nat), cfg.numBuckets = 2 ^ k →
        i < 2 ^ k →
        cuckoofilter.AltIndex cfg (cuckoofilter.AltIndex cfg i x) x = i) := by
  constructor
  · intro hp hv i h
    have h2 : i < 2 ^ hp := by
      simpa [cuckoohashtable.hashsize, Nat.shiftLeft_eq] using h
    simp only [cuckoohashtable.alt_index, cuckoohashtable.hashmask,
      cuckoohashtable.hashsize, Nat.shiftLeft_eq, one_mul]
    exact xor_mask_involution hp i _ h2
  · intro cfg k i x hnb h
    simp only [cuckoofilter.AltIndex, hnb, ← Nat.and_pow_two_sub_one_eq_mod]
    exact xor_mask_involution k i _ h

/-- C3 (witness): the amended involution evaluated at concrete inputs:
table engine at hashpower 2, index 3, hash value 37; filter engine with 4
buckets, index 3, item 11. -/
theorem c3_witness :
    (3 : Nat) < cuckoohashtable.hashsize 2 ∧
    cuckoohashtable.alt_index 2 37 (cuckoohashtable.alt_index 2 37 3) = 3 ∧
    cuckoofilter.exCfgP2.numBuckets = 2 ^ 2 ∧ (3 : Nat) < 2 ^ 2 ∧
    cuckoofilter.AltIndex cuckoofilter.exCfgP2
      (cuckoofilter.AltIndex cuckoofilter.exCfgP2 3 11) 11 = 3 :=
  ⟨by decide, c3_amended.1 2 37 3 (by decide), by decide, by decide,
    c3_amended.2 cuckoofilter.exCfgP2 2 3 11 (by decide) (by decide)⟩

section
open cuckoofilter

/-- The kick loop of `AddImpl` returns `Ok` no matter how it ends: a
successful placement and the victim-storing exhaustion path both report
success. -/
theorem addImplLoop_ok (cfg : Config) :
    ∀ fuel st ci ct kick, (AddImplLoop cfg fuel st ci ct kick).2 = Status.Ok := by
  intro fuel
  induction fuel with
  | zero => intro st ci ct kick; rfl
  | succ n ih =>
      intro st ci ct kick
      simp only [AddImplLoop]
      split
      · rfl
      · exact ih ..

/-- C5: `Add(item)` returns `NotEnoughSpace` exactly when a victim is
already held at the start of the call, and returns `Ok` in every other
case — in particular the kick-exhaustion path that stores the current
(index, tag) pair as the victim still reports `Ok`. -/
theorem c5_theorem (cfg : Config) (st : State) (item : Nat) :
    (cuckoofilter.Add cfg st item).2 =
      (if st.victim.used then Status.NotEnoughSpace else Status.Ok) := by
  simp only [cuckoofilter.Add]
  split
  · rfl
  · exact addImplLoop_ok cfg ..

/-- C10: a `Delete` that reports `NotFound` (tag absent from both candidate
buckets and not matching a held victim) leaves the filter state exactly as
it was. -/
theorem c10_theorem (cfg : Config) (st : State) (item : Nat)
    (h : (Delete cfg st item).2 = Status.NotFound) :
    (Delete cfg st item).1 = st := by
  simp only [Delete] at h ⊢
  split at h
  · simp at h
  · split at h
    · simp at h
    · split at h
      · simp at h
      · split
        · simp_all
        · rfl

/-- C10 (witness): deleting item 7 from the fresh 3-bucket filter reports
`NotFound` and leaves the state unchanged. -/
theorem c10_witness :
    (Delete exCfgA (initState exCfgA) 7).2 = Status.NotFound ∧
    (Delete exCfgA (initState exCfgA) 7).1 = initState exCfgA :=
  ⟨by decide, c10_theorem exCfgA (initState exCfgA) 7 (by decide)⟩

set_option maxRecDepth 200000 in
/-- C1: a concrete no-false-negative violation.  In the 3-bucket filter,
items 1, 2, 3, 4 fill bucket 0; adding item 265 (tag 9) succeeds by placing
tag 9 in the alternate bucket `AltIndex(0, 9) = 1` computed from the tag,
but `Contain(265)` probes buckets 0 and `AltIndex(0, 265) = 2` computed
from the item, so the just-inserted, never-deleted item 265 is reported
`NotFound` while the filter holds 5 items in 12 slots and no victim. -/
theorem c1_theorem :
    (cuckoofilter.Add exCfgA (applyOps exCfgA exOpsA4) 265).2 = Status.Ok ∧
    (cuckoofilter.Add exCfgA (applyOps exCfgA exOpsA4) 265).1 = applyOps exCfgA exOpsA ∧
    Size (applyOps exCfgA exOpsA) = 5 ∧
    (applyOps exCfgA exOpsA).victim.used = false ∧
    Contain exCfgA (applyOps exCfgA exOpsA) 265 = Status.NotFound := by
  decide

set_option maxRecDepth 1000000 in
/-- C4 (counterexample): after the five insertions into the one-bucket
filter the 500-kick walk has stored item 5's tag as the victim without
incrementing `num_items_`: a victim is held, all 4 slots are occupied, and
`Size()` is 4, not the occupied-slots-plus-one (5) demanded by the claim. -/
theorem c4_counterexample :
    (applyOps exCfg1 exOps1).victim.used = true ∧
    Size (applyOps exCfg1 exOps1) ≠
      occupiedCount (applyOps exCfg1 exOps1) +
        (if (applyOps exCfg1 exOps1).victim.used then 1 else 0) := by
  constructor
  · decide
  · decide

end

section
open cuckoofilter

/-- `TagHash` never produces the empty-slot sentinel 0. -/
theorem tagHash_ne_zero (cfg : Config) (hv : Nat) : TagHash cfg hv ≠ 0 := by
  simp only [TagHash]
  split
  · exact one_ne_zero
  · assumption

/-- Updating one slot changes `countP` by the difference of the predicate at
the old and new values (stated additively to stay in `Nat`). -/
theorem countP_set_balance {α : Type} (p : α → Bool) (b : List α) :
    ∀ (s : Nat) (x : α) (h : s < b.length),
      (b.set s x).countP p + (if p b[s] then 1 else 0) =
        b.countP p + (if p x then 1 else 0) := by
  induction b with
  | nil => intro s x h; simp at h
  | cons a l ih =>
      intro s x h
      cases s with
      | zero => simp [List.countP_cons]; omega
      | succ n =>
          have hn : n < l.length := by simpa using h
          have := ih n x hn
          simp only [List.set_cons_succ, List.countP_cons, List.getElem_cons_succ]
          omega

/-- Updating one element changes a mapped sum by the difference of the images
(stated additively to stay in `Nat`). -/
theorem sum_map_set {α : Type} (f : α → Nat) (l : List α) :
    ∀ (i : Nat) (x : α) (h : i < l.length),
      ((l.set i x).map f).sum + f l[i] = (l.map f).sum + f x := by
  induction l with
  | nil => intro i x h; simp at h
  | cons a t ih =>
      intro i x h
      cases i with
      | zero => simp [Nat.add_comm, Nat.add_left_comm]
      | succ n =>
          have hn : n < t.length := by simpa using h
          have := ih n x hn
          simp only [List.set_cons_succ, List.map_cons, List.sum_cons,
            List.getElem_cons_succ]
          omega

end

section
open cuckoofilter

/-- Success case of `InsertTagToBucket`: a nonzero tag goes into an empty
slot, so the occupied count grows by exactly one and nothing else changes. -/
theorem ITB_true_spec (st : State) (i tag : Nat) (kick : Bool) (st' : State)
    (z : Nat) (h : InsertTagToBucket st i tag kick = (true, st', z))
    (htag : tag ≠ 0) (hb4 : ∀ b ∈ st.buckets, b.length = 4) :
    st'.numItems = st.numItems ∧ st'.victim = st.victim ∧
    st'.buckets.length = st.buckets.length ∧
    (∀ b ∈ st'.buckets, b.length = 4) ∧
    occL st'.buckets = occL st.buckets + 1 := by
  simp only [InsertTagToBucket] at h
  split at h
  case h_1 s heq =>
    cases h
    rw [List.findIdx?_eq_some_iff_getElem] at heq
    obtain ⟨hs, hps, -⟩ := heq
    have hi : i < st.buckets.length := by
      by_contra hi
      have hnil : st.buckets.getD i [] = [] := by
        simp [List.getD_eq_getElem?_getD, List.getElem?_eq_none (Nat.le_of_not_lt hi)]
      rw [hnil] at hs
      simp at hs
    have hbd : st.buckets.getD i [] = st.buckets[i] := by
      simp [List.getD_eq_getElem?_getD, List.getElem?_eq_getElem hi]
    rw [hbd] at hs
    simp only [hbd] at hps ⊢
    have hmem : st.buckets[i] ∈ st.buckets := List.getElem_mem hi
    have hz : st.buckets[i][s] = 0 := by simpa using hps
    refine ⟨trivial, trivial, by simp, ?_, ?_⟩
    · intro b hb
      rcases List.mem_or_eq_of_mem_set hb with hb' | rfl
      · exact hb4 b hb'
      · rw [List.length_set]
        exact hb4 _ hmem
    · have ht1 : (tag != 0) = true := by simpa using htag
      have hbal := countP_set_balance (· != 0) st.buckets[i] s tag hs
      rw [hz, ht1] at hbal
      norm_num at hbal
      have hmap := sum_map_set (fun b => b.countP (· != 0)) st.buckets i
        (st.buckets[i].set s tag) hi
      simp only [occL] at *
      omega
  case h_2 heq =>
    split at h <;> simp at h

/-- Failure case of `InsertTagToBucket` on an in-range bucket: the
accounting is unchanged, and a kick hands back the nonzero occupant of
slot 0. -/
theorem ITB_false_spec (st : State) (i tag : Nat) (kick : Bool) (st' : State)
    (old : Nat) (h : InsertTagToBucket st i tag kick = (false, st', old))
    (htag : tag ≠ 0) (hb4 : ∀ b ∈ st.buckets, b.length = 4)
    (hi : i < st.buckets.length) :
    st'.numItems = st.numItems ∧ st'.victim = st.victim ∧
    st'.buckets.length = st.buckets.length ∧
    (∀ b ∈ st'.buckets, b.length = 4) ∧
    occL st'.buckets = occL st.buckets ∧
    (kick = true → old ≠ 0) := by
  simp only [InsertTagToBucket] at h
  split at h
  case h_1 s heq => simp at h
  case h_2 heq =>
    have hbd : st.buckets.getD i [] = st.buckets[i] := by
      simp [List.getD_eq_getElem?_getD, List.getElem?_eq_getElem hi]
    rw [List.findIdx?_eq_none_iff] at heq
    rw [hbd] at heq
    have hmem : st.buckets[i] ∈ st.buckets := List.getElem_mem hi
    have hlen : st.buckets[i].length = 4 := hb4 _ hmem
    have h0lt : 0 < st.buckets[i].length := by omega
    split at h
    case isTrue hk =>
      cases h
      have holdne : st.buckets[i][0] ≠ 0 := by
        have := heq _ (List.getElem_mem h0lt)
        simpa using this
      have hold : st.buckets[i].getD 0 0 = st.buckets[i][0] := by
        simp [List.getD_eq_getElem?_getD, List.getElem?_eq_getElem h0lt]
      simp only [hbd]
      refine ⟨trivial, trivial, by simp, ?_, ?_, ?_⟩
      · intro b hb
        rcases List.mem_or_eq_of_mem_set hb with hb' | rfl
        · exact hb4 b hb'
        · rw [List.length_set]
          exact hlen
      · have ht1 : (tag != 0) = true := by simpa using htag
        have hb0 : (st.buckets[i][0] != 0) = true := by simpa using holdne
        have hbal := countP_set_balance (· != 0) st.buckets[i] 0 tag h0lt
        rw [hb0, ht1] at hbal
        norm_num at hbal
        have hmap := sum_map_set (fun b => b.countP (· != 0)) st.buckets i
          (st.buckets[i].set 0 tag) hi
        simp only [occL] at *
        omega
      · intro hkick
        rw [hold]
        exact holdne
    case isFalse hk =>
      cases h
      refine ⟨rfl, rfl, rfl, hb4, rfl, ?_⟩
      intro hkick
      exact absurd hkick hk

/-- Success case of `DeleteTagFromBucket` for a nonzero tag: one occupied
slot is cleared and nothing else changes. -/
theorem DTB_true_spec (st : State) (i tag : Nat) (st' : State)
    (h : DeleteTagFromBucket st i tag = (true, st'))
    (htag : tag ≠ 0) (hb4 : ∀ b ∈ st.buckets, b.length = 4) :
    st'.numItems = st.numItems ∧ st'.victim = st.victim ∧
    st'.buckets.length = st.buckets.length ∧
    (∀ b ∈ st'.buckets, b.length = 4) ∧
    occL st'.buckets + 1 = occL st.buckets := by
  simp only [DeleteTagFromBucket] at h
  split at h
  case h_2 heq => simp at h
  case h_1 s heq =>
    cases h
    rw [List.findIdx?_eq_some_iff_getElem] at heq
    obtain ⟨hs, hps, -⟩ := heq
    have hi : i < st.buckets.length := by
      by_contra hi
      have hnil : st.buckets.getD i [] = [] := by
        simp [List.getD_eq_getElem?_getD, List.getElem?_eq_none (Nat.le_of_not_lt hi)]
      rw [hnil] at hs
      simp at hs
    have hbd : st.buckets.getD i [] = st.buckets[i] := by
      simp [List.getD_eq_getElem?_getD, List.getElem?_eq_getElem hi]
    rw [hbd] at hs
    simp only [hbd] at hps ⊢
    have hmem : st.buckets[i] ∈ st.buckets := List.getElem_mem hi
    have htg : st.buckets[i][s] = tag := by simpa using hps
    refine ⟨trivial, trivial, by simp, ?_, ?_⟩
    · intro b hb
      rcases List.mem_or_eq_of_mem_set hb with hb' | rfl
      · exact hb4 b hb'
      · rw [List.length_set]
        exact hb4 _ hmem
    · have hbs : (st.buckets[i][s] != 0) = true := by simp [htg, htag]
      have hbal := countP_set_balance (· != 0) st.buckets[i] s 0 hs
      rw [hbs] at hbal
      norm_num at hbal
      have hmap := sum_map_set (fun b => b.countP (· != 0)) st.buckets i
        (st.buckets[i].set s 0) hi
      simp only [occL] at *
      omega

/-- A failed `DeleteTagFromBucket` returns the state unchanged. -/
theorem DTB_false_id (st : State) (i tag : Nat) (st' : State)
    (h : DeleteTagFromBucket st i tag = (false, st')) : st' = st := by
  simp only [DeleteTagFromBucket] at h
  split at h
  case h_1 s heq => simp at h
  case h_2 heq =>
    cases h
    rfl

end

section
open cuckoofilter

/-- On a filter with no buckets the kick loop can never place a tag: the
buckets and the item count are untouched (only the victim may be set). -/
theorem addImplLoop_nil (cfg : Config) :
    ∀ (fuel n : Nat) (v : VictimCache) (ci ct : Nat) (kick : Bool),
      ∃ v', AddImplLoop cfg fuel ⟨[], n, v⟩ ci ct kick = (⟨[], n, v'⟩, Status.Ok) := by
  intro fuel
  induction fuel with
  | zero =>
      intro n v ci ct kick
      exact ⟨⟨ci, ct, true⟩, rfl⟩
  | succ m ih =>
      intro n v ci ct kick
      simp only [AddImplLoop, InsertTagToBucket]
      cases kick <;> simp <;> exact ih ..

/-- Accounting invariant of the kick loop on a filter with at least one
bucket, for an in-range start index and a nonzero tag: bucket shape is
preserved, the item-count delta equals the occupied-slot delta, and the
victim is either untouched or set to a nonzero tag with an in-range
index. -/
theorem addImplLoop_inv (cfg : Config) :
    ∀ (fuel : Nat) (st : State) (ci ct : Nat) (kick : Bool),
      st.buckets.length = cfg.numBuckets →
      0 < cfg.numBuckets →
      (∀ b ∈ st.buckets, b.length = 4) →
      ci < cfg.numBuckets →
      ct ≠ 0 →
      (AddImplLoop cfg fuel st ci ct kick).1.buckets.length = cfg.numBuckets ∧
      (∀ b ∈ (AddImplLoop cfg fuel st ci ct kick).1.buckets, b.length = 4) ∧
      (AddImplLoop cfg fuel st ci ct kick).1.numItems + occL st.buckets =
        st.numItems + occL (AddImplLoop cfg fuel st ci ct kick).1.buckets ∧
      ((AddImplLoop cfg fuel st ci ct kick).1.victim = st.victim ∨
        ((AddImplLoop cfg fuel st ci ct kick).1.victim.tag ≠ 0 ∧
          (AddImplLoop cfg fuel st ci ct kick).1.victim.index < cfg.numBuckets)) := by
  intro fuel
  induction fuel with
  | zero =>
      intro st ci ct kick h1 h2 h3 h4 h5
      simp only [AddImplLoop]
      exact ⟨h1, h3, trivial, Or.inr ⟨h5, h4⟩⟩
  | succ m ih =>
      intro st ci ct kick h1 h2 h3 h4 h5
      simp only [AddImplLoop]
      split
      case h_1 st' z heq =>
        obtain ⟨e1, e2, e3, e4, e5⟩ := ITB_true_spec st ci ct kick st' z heq h5 h3
        refine ⟨by simpa [e3] using h1, e4, ?_, Or.inl e2⟩
        simp only []
        omega
      case h_2 st' old heq =>
        have hci : ci < st.buckets.length := by omega
        obtain ⟨e1, e2, e3, e4, e5, e6⟩ :=
          ITB_false_spec st ci ct kick st' old heq h5 h3 hci
        have hct' : (if kick then old else ct) ≠ 0 := by
          cases kick
          · simpa using h5
          · simpa using e6 rfl
        have hmod : AltIndex cfg ci (if kick then old else ct) < cfg.numBuckets :=
          Nat.mod_lt _ h2
        obtain ⟨f1, f2, f3, f4⟩ := ih st' (AltIndex cfg ci (if kick then old else ct))
          (if kick then old else ct) true (e3.trans h1) h2 e4 hmod hct'
        refine ⟨f1, f2, ?_, ?_⟩
        · omega
        · rcases f4 with f4 | f4
          · exact Or.inl (f4.trans e2)
          · exact Or.inr f4

end

section
open cuckoofilter

/-- `Add` preserves the size invariant. -/
theorem Add_inv (cfg : Config) (st : State) (item : Nat) (h : SizeInv cfg st) :
    SizeInv cfg (cuckoofilter.Add cfg st item).1 := by
  obtain ⟨h1, h2, h3, h4⟩ := h
  simp only [cuckoofilter.Add]
  split
  · exact ⟨h1, h2, h3, h4⟩
  · simp only [AddImpl]
    rcases Nat.eq_zero_or_pos cfg.numBuckets with hz | hpos
    · obtain ⟨bs, n, v⟩ := st
      have hbs : bs = [] := by
        apply List.length_eq_zero.mp
        simp only at h1
        omega
      subst hbs
      obtain ⟨v', hv⟩ := addImplLoop_nil cfg kMaxCuckooCount n v
        (GenerateIndexTagHash cfg item).1 (GenerateIndexTagHash cfg item).2 false
      rw [hv]
      exact ⟨h1, h2, fun _ => Or.inr hz, h4⟩
    · have hfst : (GenerateIndexTagHash cfg item).1 = IndexHash cfg item := rfl
      have hidx : (GenerateIndexTagHash cfg item).1 < cfg.numBuckets := by
        rw [hfst]
        exact Nat.mod_lt _ hpos
      have htag : (GenerateIndexTagHash cfg item).2 ≠ 0 := tagHash_ne_zero cfg _
      obtain ⟨f1, f2, f3, f4⟩ := addImplLoop_inv cfg kMaxCuckooCount st
        (GenerateIndexTagHash cfg item).1 (GenerateIndexTagHash cfg item).2 false
        h1 hpos h2 hidx htag
      have hocc : occupiedCount st = occL st.buckets := rfl
      refine ⟨f1, f2, ?_, ?_⟩
      · rcases f4 with f4 | f4
        · rw [f4]
          exact h3
        · exact fun _ => Or.inl f4
      · have : occupiedCount (AddImplLoop cfg kMaxCuckooCount st
            (GenerateIndexTagHash cfg item).1 (GenerateIndexTagHash cfg item).2 false).1 =
            occL (AddImplLoop cfg kMaxCuckooCount st
            (GenerateIndexTagHash cfg item).1 (GenerateIndexTagHash cfg item).2 false).1.buckets := rfl
        omega

/-- `TryEliminateVictim` preserves the size invariant. -/
theorem TEV_inv (cfg : Config) (st : State) (h : SizeInv cfg st) :
    SizeInv cfg (TryEliminateVictim cfg st) := by
  obtain ⟨bs, n, vi, vt, vu⟩ := st
  obtain ⟨h1, h2, h3, h4⟩ := h
  simp only [TryEliminateVictim]
  split
  case isTrue hu =>
    simp only [AddImpl]
    rcases h3 hu with ⟨htag, hidx⟩ | hz
    · have hpos : 0 < cfg.numBuckets := by omega
      obtain ⟨f1, f2, f3, f4⟩ := addImplLoop_inv cfg kMaxCuckooCount
        ⟨bs, n, vi, vt, false⟩ vi vt false h1 hpos h2 hidx htag
      have hocc : occupiedCount (AddImplLoop cfg kMaxCuckooCount
          ⟨bs, n, vi, vt, false⟩ vi vt false).1 =
          occL (AddImplLoop cfg kMaxCuckooCount
          ⟨bs, n, vi, vt, false⟩ vi vt false).1.buckets := rfl
      have hocc2 : occupiedCount (⟨bs, n, vi, vt, vu⟩ : State) = occL bs := rfl
      refine ⟨f1, f2, ?_, ?_⟩
      · rcases f4 with f4 | f4
        · rw [f4]
          intro hc
          simp at hc
        · exact fun _ => Or.inl f4
      · simp only at f3 h4 ⊢
        omega
    · have hbs : bs = [] := by
        apply List.length_eq_zero.mp
        simp only at h1
        omega
      subst hbs
      obtain ⟨v', hv⟩ := addImplLoop_nil cfg kMaxCuckooCount n
        ⟨vi, vt, false⟩ vi vt false
      rw [hv]
      exact ⟨h1, h2, fun _ => Or.inr hz, h4⟩
  case isFalse => exact ⟨h1, h2, h3, h4⟩

/-- `Delete` preserves the size invariant. -/
theorem Delete_inv (cfg : Config) (st : State) (item : Nat) (h : SizeInv cfg st) :
    SizeInv cfg (Delete cfg st item).1 := by
  obtain ⟨h1, h2, h3, h4⟩ := h
  have htag : (GenerateIndexTagHash cfg item).2 ≠ 0 := tagHash_ne_zero cfg _
  have hocc2 : occupiedCount st = occL st.buckets := rfl
  simp only [Delete]
  split
  case h_1 st' heq =>
    obtain ⟨e1, e2, e3, e4, e5⟩ := DTB_true_spec st _ _ st' heq htag h2
    apply TEV_inv
    refine ⟨?_, e4, ?_, ?_⟩
    · show st'.buckets.length = cfg.numBuckets
      omega
    · rw [e2]
      exact h3
    · show st'.numItems - 1 = occL st'.buckets
      have hocc3 : occupiedCount st' = occL st'.buckets := rfl
      omega
  case h_2 heq0 =>
    split
    case h_1 st' heq =>
      obtain ⟨e1, e2, e3, e4, e5⟩ := DTB_true_spec st _ _ st' heq htag h2
      apply TEV_inv
      refine ⟨?_, e4, ?_, ?_⟩
      · show st'.buckets.length = cfg.numBuckets
        omega
      · rw [e2]
        exact h3
      · show st'.numItems - 1 = occL st'.buckets
        have hocc3 : occupiedCount st' = occL st'.buckets := rfl
        omega
    case h_2 heq1 =>
      split
      case isTrue => exact ⟨h1, h2, by intro hc; simp at hc, h4⟩
      case isFalse => exact ⟨h1, h2, h3, h4⟩

/-- The fresh filter satisfies the size invariant. -/
theorem initState_inv (cfg : Config) : SizeInv cfg (initState cfg) := by
  refine ⟨by simp [initState], ?_, by simp [initState], ?_⟩
  · intro b hb
    rw [List.eq_of_mem_replicate hb]
    rfl
  · show 0 = occupiedCount (initState cfg)
    simp only [occupiedCount, initState, List.map_replicate, List.sum_replicate]
    have : (List.replicate 4 0).countP (· != 0) = 0 := rfl
    rw [this]
    simp

/-- Every state reachable by `Add`/`Delete` sequences satisfies the size
invariant. -/
theorem applyOps_inv (cfg : Config) (ops : List Op) :
    SizeInv cfg (applyOps cfg ops) := by
  suffices h : ∀ (l : List Op) (st : State), SizeInv cfg st →
      SizeInv cfg (l.foldl (applyOp cfg) st) by
    exact h ops (initState cfg) (initState_inv cfg)
  intro l
  induction l with
  | nil => intro st h; exact h
  | cons o t ih =>
      intro st h
      refine ih _ ?_
      cases o with
      | add item => exact Add_inv cfg st item h
      | del item => exact Delete_inv cfg st item h

end

/-- C4 (amended): in every filter state reachable by any sequence of `Add`
and `Delete` operations, `Size()` equals the number of occupied slots across
all buckets; a held victim is not counted (the victim-storing path of
`AddImpl` does not increment `num_items_` and the victim-clearing path of
`Delete` does not decrement it). -/
theorem c4_amended (cfg : cuckoofilter.Config) (ops : List cuckoofilter.Op) :
    cuckoofilter.Size (cuckoofilter.applyOps cfg ops) =
      cuckoofilter.occupiedCount (cuckoofilter.applyOps cfg ops) :=
  (applyOps_inv cfg ops).2.2.2

section
open cuckoohashtable

/-- If the insert-scan of a bucket stops with a duplicate at slot `s`, then
slot `s` of that bucket indeed stores the probed key. -/
theorem tfibGo_false_spec (cfg : Config) (st : State) (bi key : Nat) :
    ∀ (j i : Nat) (acc : Option Nat) (s : Nat),
      tfibGo cfg st bi key j i acc = (false, some s) →
      (st.buckets.getD bi []).getD s none = some key := by
  intro j
  induction j with
  | zero => intro i acc s h; simp [tfibGo] at h
  | succ m ih =>
      intro i acc s h
      simp only [tfibGo] at h
      split at h
      case h_1 k heq =>
        split at h
        case isTrue hk =>
          obtain ⟨rfl⟩ : i = s := by cases h; rfl
          rw [heq]
          have : k = key := by simpa using hk
          rw [this]
        case isFalse hk => exact ih (i + 1) acc s h
      case h_2 heq => exact ih (i + 1) (some i) s h

/-- C9: inserting a key that is already stored returns exactly the stored
copy's (index, slot) with status `failure_key_duplicated`, leaves the table
state (hence `size()`) unchanged, and creates no second copy: if the
duplicate scan of the primary candidate bucket finds the key at slot `s`,
`insert` returns `(i1, s)` and the unchanged state; if the primary scan
finds no duplicate and the alternate scan finds the key at slot `s`,
`insert` returns `(i2, s)` and the unchanged state.  In both cases the
reported slot stores the key. -/
theorem c9_theorem (cfg : Config) (fuel : Nat) (st : State) (key s : Nat) :
    (try_find_insert_bucket cfg st (index_hash cfg.hp (cfg.hf key)) key =
        (false, some s) →
      cuckoohashtable.insert cfg fuel st key =
        Except.ok ((index_hash cfg.hp (cfg.hf key), s), st) ∧
      (st.buckets.getD (index_hash cfg.hp (cfg.hf key)) []).getD s none = some key ∧
      size st = size st) ∧
    (∀ r1, try_find_insert_bucket cfg st (index_hash cfg.hp (cfg.hf key)) key =
        (true, r1) →
      try_find_insert_bucket cfg st
          (alt_index cfg.hp (cfg.hf key) (index_hash cfg.hp (cfg.hf key))) key =
        (false, some s) →
      cuckoohashtable.insert cfg fuel st key =
        Except.ok ((alt_index cfg.hp (cfg.hf key)
          (index_hash cfg.hp (cfg.hf key)), s), st) ∧
      (st.buckets.getD (alt_index cfg.hp (cfg.hf key)
          (index_hash cfg.hp (cfg.hf key))) []).getD s none = some key) := by
  constructor
  · intro h1
    refine ⟨?_, tfibGo_false_spec cfg st _ key _ 0 none s h1, rfl⟩
    simp only [cuckoohashtable.insert, cuckoo_insert_loop, cuckoo_insert, h1]
    rfl
  · intro r1 h1 h2
    refine ⟨?_, tfibGo_false_spec cfg st _ key _ 0 none s h2⟩
    simp only [cuckoohashtable.insert, cuckoo_insert_loop, cuckoo_insert, h1, h2]
    rfl

/-- C9 (witness): the table built by inserting key 3 into the fresh
hashpower-1 table stores 3 at bucket 1, slot 3 with `size()` 1; inserting 3
again returns the identical position `(1, 3)`, the unchanged state, and so
`size()` stays 1. -/
theorem c9_witness :
    try_find_insert_bucket exCfg2 exTbl9 1 3 = (false, some 3) ∧
    size exTbl9 = 1 ∧
    cuckoohashtable.insert exCfg2 1 exTbl9 3 = Except.ok ((1, 3), exTbl9) ∧
    (exTbl9.buckets.getD 1 []).getD 3 none = some 3 :=
  ⟨by decide, by decide,
    ((c9_theorem exCfg2 1 exTbl9 3 3).1 (by decide)).1,
    ((c9_theorem exCfg2 1 exTbl9 3 3).1 (by decide)).2.1⟩

/-- C2: evaluating the code at the failing input.  Inserting 0, 4, 8, 12,
16 into the fresh hashpower-1 table places 16 in bucket 1 (its alternate
bucket) at slot 3; `cuckoo_find` then locates 16 in bucket `i2 = 1` but
reports the position with index `i1 = 0` (cuckoohashtable.hh line 355), so
`find(16)` returns the key stored at bucket 0 slot 3 - the key 0, not 16. -/
theorem c2_theorem :
    insertList exCfg2 1 (initState exCfg2) exKeys2 = exTbl2 ∧
    cuckoo_find exCfg2 exTbl2 16 0 1 = ⟨0, 3, cuckoo_status.ok⟩ ∧
    find exCfg2 exTbl2 16 = Except.ok 0 := by
  refine ⟨by decide, by decide, by decide⟩

end

section
open cuckoohashtable

/-- C6 (counterexample): the expected key-not-found condition is not
reported as a status value: `find` on a key absent from both candidate
buckets throws (`Except.error` models the C++ `throw std::out_of_range`). -/
theorem c6_counterexample :
    find exCfg2 exTbl2 5 = Except.error TError.keyNotFound := by decide

/-- C6 (amended): the table engine reports a duplicate key as an explicit
return value (the stored copy's position, no exception), but the key-not-
found and table-full conditions are raised as exceptions (`throw
std::out_of_range`, modelled by `Except.error`): `find` throws exactly when
`cuckoo_find` does not report `ok`, and `insert` throws `tableFull` exactly
when `cuckoo_insert` reports `failure_table_full`. -/
theorem c6_amended :
    (∀ (cfg : Config) (st : State) (key : Nat),
        find cfg st key = Except.error TError.keyNotFound ↔
          (cuckoo_find cfg st key (index_hash cfg.hp (cfg.hf key))
            (alt_index cfg.hp (cfg.hf key)
              (index_hash cfg.hp (cfg.hf key)))).status ≠ cuckoo_status.ok) ∧
    (∀ (cfg : Config) (fuel : Nat) (st : State) (key : Nat),
        cuckoohashtable.insert cfg fuel st key = Except.error TError.tableFull ↔
          ∃ pos st1,
            cuckoo_insert cfg fuel st (index_hash cfg.hp (cfg.hf key))
                (alt_index cfg.hp (cfg.hf key)
                  (index_hash cfg.hp (cfg.hf key))) key = some (pos, st1) ∧
            pos.status = cuckoo_status.failure_table_full) ∧
    cuckoohashtable.insert exCfg2 1 exTbl9 3 = Except.ok ((1, 3), exTbl9) := by
  refine ⟨?_, ?_, by decide⟩
  · intro cfg st key
    simp only [find]
    split
    case isTrue h => simp [h]
    case isFalse h => simp [h]
  · intro cfg fuel st key
    rcases h : cuckoo_insert cfg fuel st (index_hash cfg.hp (cfg.hf key))
        (alt_index cfg.hp (cfg.hf key) (index_hash cfg.hp (cfg.hf key))) key with
      - | ⟨⟨pi, ps, pst⟩, st1⟩
    · simp [cuckoohashtable.insert, cuckoo_insert_loop, h]
    · cases pst <;> simp [cuckoohashtable.insert, cuckoo_insert_loop, h]

end

section
open cuckoohashtable

/-- The pending weight of a depth-`d` entry covers one enqueue plus the
pending weight of each of its at most 4 children. -/
theorem hWeight_succ (d : Nat) (h : d < 4) :
    hWeight d = 4 * (1 + hWeight (d + 1)) := by
  interval_cases d <;> rfl

/-- Enqueueing adds the entry's weight to the pending weight. -/
theorem pendingH_append (q : b_queue) (x : b_slot) (h : q.first ≤ q.slots.length) :
    pendingH ⟨q.slots ++ [x], q.first⟩ = pendingH q + hWeight x.depth := by
  simp [pendingH, List.drop_append_of_le_length h]

/-- Dequeueing removes the head entry's weight from the pending weight. -/
theorem pendingH_dequeue (q : b_queue) (x : b_slot)
    (h : q.slots.get? q.first = some x) :
    pendingH q = hWeight x.depth + pendingH ⟨q.slots, q.first + 1⟩ := by
  rw [List.get?_eq_getElem?] at h
  obtain ⟨hlt, hx⟩ := List.getElem?_eq_some_iff.mp h
  simp only [pendingH]
  rw [List.drop_eq_getElem_cons hlt, hx]
  simp

/-- The slot scan never hits a full queue and keeps the potential bounded,
provided the remaining slots are budgeted for. -/
theorem scanGo_no_overflow (cfg : Config) (st : State) (x : b_slot) (start : Nat) :
    ∀ (j i : Nat) (q : b_queue),
      GoodQ q →
      x.depth ≤ 4 →
      PsiQ q + j * (if x.depth < 4 then 1 + hWeight (x.depth + 1) else 0) ≤ 682 →
      scanGo cfg st x start j i q ≠ ScanOut.overflow ∧
      (∀ q', scanGo cfg st x start j i q = ScanOut.cont q' →
        GoodQ q' ∧ PsiQ q' ≤ 682) := by
  intro j
  induction j with
  | zero =>
      intro i q hg hd hb
      refine ⟨by simp [scanGo], ?_⟩
      intro q' h
      simp only [scanGo] at h
      cases h
      exact ⟨hg, by omega⟩
  | succ m ih =>
      intro i q hg hd hb
      simp only [scanGo]
      split
      case isTrue hocc =>
        split
        case isTrue hdep =>
          have hdep4 : x.depth < 4 := hdep
          have hwpos : (if x.depth < 4 then 1 + hWeight (x.depth + 1) else 0) =
              1 + hWeight (x.depth + 1) := if_pos hdep4
          have hlen : q.slots.length < MAX_CUCKOO_COUNT := by
            have h1 : q.slots.length ≤ PsiQ q := by
              simp only [PsiQ]
              omega
            have h2 : MAX_CUCKOO_COUNT = 682 := rfl
            have h3 : 0 < (m + 1) * (1 + hWeight (x.depth + 1)) :=
              Nat.mul_pos (Nat.succ_pos m) (by omega)
            rw [hwpos] at hb
            omega
          have hfull : bqFull q = false := by
            simp [bqFull]
            omega
          simp only [enqueue, hfull, Bool.false_eq_true, if_false]
          apply ih
          · refine ⟨?_, ?_⟩
            · simp only [List.length_append]
              have := hg.1
              omega
            · intro e he
              rcases List.mem_append.mp he with he' | he'
              · exact hg.2 e he'
              · simp only [List.mem_singleton] at he'
                subst he'
                simp only []
                omega
          · exact hd
          · have hpq : PsiQ ⟨q.slots ++ [⟨alt_index cfg.hp (keyAt cfg st x.bucket
                ((start + i) % SLOT_PER_BUCKET)) x.bucket,
                x.pathcode * SLOT_PER_BUCKET + (start + i) % SLOT_PER_BUCKET,
                x.depth + 1⟩], q.first⟩ =
                PsiQ q + 1 + hWeight (x.depth + 1) := by
              simp only [PsiQ]
              rw [pendingH_append q _ hg.1]
              simp only [List.length_append, List.length_singleton]
              omega
            have hdist : (m + 1) * (1 + hWeight (x.depth + 1)) =
                (1 + hWeight (x.depth + 1)) + m * (1 + hWeight (x.depth + 1)) := by
              ring
            rw [hwpos] at hb ⊢
            omega
        case isFalse hdep =>
          apply ih
          · exact hg
          · exact hd
          · have : (if x.depth < 4 then 1 + hWeight (x.depth + 1) else 0) = 0 :=
              if_neg hdep
            rw [this] at hb ⊢
            omega
      case isFalse hocc =>
        refine ⟨by simp, ?_⟩
        intro q' h
        cases h

/-- The BFS loop never reports a queue overflow from a well-formed queue
whose potential is within the capacity. -/
theorem slotSearchLoop_no_overflow (cfg : Config) (st : State) :
    ∀ (fuel : Nat) (q : b_queue), GoodQ q → PsiQ q ≤ 682 →
      slotSearchLoop cfg st fuel q ≠ SearchResult.queueOverflow := by
  intro fuel
  induction fuel with
  | zero =>
      intro q hg hp
      simp only [slotSearchLoop]
      split <;> simp
  | succ m ih =>
      intro q hg hp
      simp only [slotSearchLoop]
      split
      case isTrue => simp
      case isFalse hne =>
        rcases hdq : dequeue q with - | ⟨x, q1⟩
        · simp
        · simp only []
          have hget : q.slots.get? q.first = some x ∧ q1 = ⟨q.slots, q.first + 1⟩ := by
            simp only [dequeue] at hdq
            split at hdq
            case h_1 y hy =>
              cases hdq
              exact ⟨hy, rfl⟩
            case h_2 hy => cases hdq
          obtain ⟨hget, rfl⟩ := hget
          have hxdep : x.depth ≤ 4 := by
            apply hg.2
            rw [List.get?_eq_getElem?] at hget
            exact List.getElem?_mem hget
          have hfirst : q.first < q.slots.length := by
            rw [List.get?_eq_getElem?] at hget
            obtain ⟨h, -⟩ := List.getElem?_eq_some_iff.mp hget
            exact h
          have hpq1 : PsiQ q = hWeight x.depth + PsiQ ⟨q.slots, q.first + 1⟩ := by
            simp only [PsiQ]
            rw [pendingH_dequeue q x hget]
            omega
          have hg1 : GoodQ ⟨q.slots, q.first + 1⟩ := ⟨hfirst, hg.2⟩
          have hbudget : PsiQ ⟨q.slots, q.first + 1⟩ +
              SLOT_PER_BUCKET * (if x.depth < 4 then 1 + hWeight (x.depth + 1)
                else 0) ≤ 682 := by
            rcases Nat.lt_or_ge x.depth 4 with hlt | hge
            · rw [if_pos hlt]
              have hws := hWeight_succ x.depth hlt
              show PsiQ ⟨q.slots, q.first + 1⟩ +
                4 * (1 + hWeight (x.depth + 1)) ≤ 682
              omega
            · rw [if_neg (by omega)]
              show PsiQ ⟨q.slots, q.first + 1⟩ + 4 * 0 ≤ 682
              omega
          obtain ⟨hnov, hcont⟩ := scanGo_no_overflow cfg st x
            (x.pathcode % SLOT_PER_BUCKET) SLOT_PER_BUCKET 0
            ⟨q.slots, q.first + 1⟩ hg1 hxdep hbudget
          split
          case h_1 y hy => simp
          case h_2 hy => exact absurd hy hnov
          case h_3 q2 hy =>
            obtain ⟨hg2, hp2⟩ := hcont q2 hy
            exact ih q2 hg2 hp2

/-- C8: the fixed BFS queue capacity `2 * ((4^5 - 1) / (4 - 1)) = 682` is
never exceeded during a single `slot_search`: every `enqueue` finds the
queue not full, so `slot_search` never reports an overflow, for every table
state and every pair of start buckets. -/
theorem c8_theorem :
    MAX_CUCKOO_COUNT = 682 ∧
    ∀ (cfg : Config) (st : State) (i1 i2 : Nat),
      slot_search cfg st i1 i2 ≠ SearchResult.queueOverflow := by
  refine ⟨rfl, ?_⟩
  intro cfg st i1 i2
  have hss : slot_search cfg st i1 i2 =
      slotSearchLoop cfg st MAX_CUCKOO_COUNT ⟨[⟨i1, 0, 0⟩, ⟨i2, 1, 0⟩], 0⟩ := rfl
  rw [hss]
  apply slotSearchLoop_no_overflow
  · constructor
    · simp
    · intro e he
      simp only [List.mem_cons, List.mem_singleton, List.not_mem_nil,
        or_false] at he
      rcases he with rfl | rfl
      · show (0 : Nat) ≤ MAX_BFS_PATH_LEN - 1
        decide
      · show (0 : Nat) ≤ MAX_BFS_PATH_LEN - 1
        decide
  · show PsiQ ⟨[⟨i1, 0, 0⟩, ⟨i2, 1, 0⟩], 0⟩ ≤ 682
    simp [PsiQ, pendingH, hWeight]

end

section
open cuckoohashtable

/-- If one iteration of the `run_cuckoo` retry loop neither finishes nor
changes the table, the loop runs forever (out of fuel for every fuel). -/
theorem run_cuckoo_fix (cfg : Config) (st : State) (i1 i2 : Nat)
    (path : List CuckooRecord) (depth : Nat)
    (hs : cuckoopath_search cfg st i1 i2 = some (path, depth))
    (hm : cuckoopath_move cfg st path depth = (false, st)) :
    ∀ fuel, run_cuckoo cfg fuel st i1 i2 = (RCOut.outOfFuel, st) := by
  intro fuel
  induction fuel with
  | zero => rfl
  | succ n ih =>
      simp only [run_cuckoo, hs, hm]
      exact ih

/-- C7: a concrete non-terminating insertion.  In `exTbl7` (buckets 0 and 1
full, buckets 2 and 3 empty) inserting key 50 (hash 16, candidate buckets 0
and 1) runs the eviction machinery: `slot_search` walks to bucket 2 via
`alt_index` of the RAW stored key 4 (cuckoohashtable.hh line 799) and finds
an empty slot there, but `cuckoopath_search` re-derives the same hop from
the HASHED key (`hf 4 = 0`), landing on the occupied bucket 1 slot 0;
`cuckoopath_move` therefore fails its occupancy check without modifying the
table, and the `while (!done)` loop of `run_cuckoo` repeats the identical
search forever: for every fuel, `run_cuckoo` exhausts it with the state
unchanged, and `insert` never returns. -/
theorem c7_theorem :
    cuckoopath_search exCfg7 exTbl7 0 1 = some ([⟨0, 0, 0⟩, ⟨1, 0, 200⟩], 1) ∧
    cuckoopath_move exCfg7 exTbl7 [⟨0, 0, 0⟩, ⟨1, 0, 200⟩] 1 = (false, exTbl7) ∧
    (∀ fuel, run_cuckoo exCfg7 fuel exTbl7 0 1 = (RCOut.outOfFuel, exTbl7)) ∧
    (∀ fuel, cuckoohashtable.insert exCfg7 fuel exTbl7 50 =
      Except.error TError.loopLimit) := by
  have hs : cuckoopath_search exCfg7 exTbl7 0 1 =
      some ([⟨0, 0, 0⟩, ⟨1, 0, 200⟩], 1) := by decide
  have hm : cuckoopath_move exCfg7 exTbl7 [⟨0, 0, 0⟩, ⟨1, 0, 200⟩] 1 =
      (false, exTbl7) := by decide
  have hrc := run_cuckoo_fix exCfg7 exTbl7 0 1 [⟨0, 0, 0⟩, ⟨1, 0, 200⟩] 1 hs hm
  refine ⟨hs, hm, hrc, ?_⟩
  intro fuel
  have hi1 : index_hash exCfg7.hp (exCfg7.hf 50) = 0 := by decide
  have hi2 : alt_index exCfg7.hp (exCfg7.hf 50) 0 = 1 := by decide
  have h1 : try_find_insert_bucket exCfg7 exTbl7 0 50 = (true, none) := by decide
  have h2 : try_find_insert_bucket exCfg7 exTbl7 1 50 = (true, none) := by decide
  simp only [cuckoohashtable.insert, hi1, hi2, cuckoo_insert_loop, cuckoo_insert,
    h1, h2, hrc fuel]

end
